import Mathlib

/-!
Verification of the RhythmGen core: the chart generator (`beatmap.py`,
`generate_beatmap`) and the judgment engine / game clock (`game.py`,
`RhythmGame`).

Times, energies and clock values are modelled as exact rationals (the source
uses Python floats for the same arithmetic).  The librosa front-end calls
(`beat_track`, `feature.rms`, `frames_to_time`) are external library
functions: the pipeline is therefore embedded as a function of their outputs
(the list of detected beat times and the RMS envelope as (time, value)
frames), while everything the repository itself computes from those outputs
is translated statement by statement.  Python runtime errors (an unbound
local, a modulo by zero) are modelled by `Option`, with `none` standing for
the raised exception.  Presentation-only state of `RhythmGame` (surfaces,
fonts, feedback labels, ripples) is outside the judged state and omitted.
-/

set_option maxRecDepth 100000

/-- A chart note: `{"time": float_seconds, "lane": int}` from `beatmap.py`. -/
structure Note where
  time : ℚ
  lane : ℤ
deriving DecidableEq, Repr

/-- A candidate event `{"time": ..., "energy": ...}` from `beatmap.py`. -/
structure Cand where
  time : ℚ
  energy : ℚ
deriving DecidableEq, Repr

/-- Python `int(x)`: truncation toward zero. -/
def pyTrunc (q : ℚ) : ℤ :=
  if 0 ≤ q then ⌊q⌋ else ⌈q⌉

/-- Python `round(x)` to an integer: nearest, ties to even. -/
def pyRoundInt (q : ℚ) : ℤ :=
  let f := ⌊q⌋
  let r := q - f
  if r < 1/2 then f
  else if 1/2 < r then f + 1
  else if 2 ∣ f then f else f + 1

/-- Python `round(x, 4)` as used on note times in `beatmap.py`. -/
def round4 (q : ℚ) : ℚ :=
  (pyRoundInt (q * 10000) : ℚ) / 10000

/-- The 16th-note grid built from consecutive beat times
(`beatmap.py` lines 27-31): four equal subdivisions of every
beat-to-beat interval, then the final beat itself. -/
def sixteenthGrid : List ℚ → List ℚ
  | [] => []
  | [b] => [b]
  | b1 :: b2 :: rest =>
    ((List.range 4).map fun j => b1 + j * ((b2 - b1) / 4)) ++ sixteenthGrid (b2 :: rest)

/-- The evenly spaced fallback grid (`beatmap.py` lines 33-35):
`np.arange(0.0, duration, max(0.125, difficulty))`. -/
def fallbackGrid (duration difficulty : ℚ) : List ℚ :=
  let step := max (1/8) difficulty
  (List.range (Int.ceil (duration / step)).toNat).map fun i => (i : ℚ) * step

/-- `np.percentile(xs, 75)` with the default linear interpolation. -/
def percentile75 (xs : List ℚ) : ℚ :=
  let s := List.insertionSort (fun a b : ℚ => a ≤ b) xs
  if s.length = 0 then 0
  else
    let pos : ℚ := 3 * ((s.length : ℚ) - 1) / 4
    let k := (Int.floor pos).toNat
    match s.get? k, s.get? (k + 1) with
    | some a, some b => a + (pos - k) * (b - a)
    | some a, none => a
    | none, _ => 0

/-- Left neighbour comparison of `is_peak` (`beatmap.py` lines 40-41):
the envelope is virtually padded with negative infinity, so frame 0
always passes. -/
def leftSmaller (frames : List (ℚ × ℚ)) (i : ℕ) (v : ℚ) : Bool :=
  match i with
  | 0 => true
  | j + 1 =>
    match frames.get? j with
    | none => true
    | some p => decide (p.2 < v)

/-- Right neighbour comparison of `is_peak`. -/
def rightSmaller (frames : List (ℚ × ℚ)) (i : ℕ) (v : ℚ) : Bool :=
  match frames.get? (i + 1) with
  | none => true
  | some p => decide (p.2 < v)

/-- RMS-peak extraction (`beatmap.py` lines 38-48): strict local maxima of
the RMS envelope, at least the 75th percentile of the non-zero frames, and
more than 0.05 s away from both ends of the audio. -/
def rmsPeaks (frames : List (ℚ × ℚ)) (duration : ℚ) : List Cand :=
  let nz := (frames.map Prod.snd).filter fun v => decide (0 < v)
  let thresh := if nz.isEmpty then 0 else percentile75 nz
  (List.range frames.length).filterMap fun i =>
    match frames.get? i with
    | none => none
    | some (t, v) =>
      if leftSmaller frames i v && rightSmaller frames i v
          && decide (thresh ≤ v) && decide (1/20 < t) && decide (t < duration - 1/20)
      then some ⟨t, v⟩ else none

/-- `min(sixteenth_grid, key=lambda t: abs(t - c.time))` (`beatmap.py`
line 61): the first grid point at minimal distance (Python `min` keeps the
earlier element on ties). -/
def nearestGridPoint (grid : List ℚ) (t : ℚ) : ℚ :=
  match grid with
  | [] => t
  | g :: gs => gs.foldl (fun best x => if |x - t| < |best - t| then x else best) g

/-- One assignment of the dict comprehension `{c["time"]: c}` (`beatmap.py`
line 65): an existing key keeps its position but its value is overwritten
by the later candidate; a new key is appended. -/
def updateAssoc (m : List (ℚ × Cand)) (c : Cand) : List (ℚ × Cand) :=
  if m.any fun p => p.1 = c.time then
    m.map fun p => if p.1 = c.time then (p.1, c) else p
  else m ++ [(c.time, c)]

/-- The deduplication step (`beatmap.py` line 65):
`sorted({c["time"]: c for c in all_cands}.values(), key=lambda x: x["time"])`.
Per time key the dict keeps the last-inserted candidate. -/
def dedupByTime (cands : List Cand) : List Cand :=
  ((cands.foldl updateAssoc []).map Prod.snd).insertionSort
    fun a b => a.time ≤ b.time

/-- Intensity normalization (`beatmap.py` lines 68-72): map energies
linearly onto `[0,1]`; all-equal energies map to zeros. -/
def normEnergies (es : List ℚ) : List ℚ :=
  match es with
  | [] => []
  | e :: rest =>
    let emin := rest.foldl min e
    let emax := rest.foldl max e
    if emin < emax then (e :: rest).map fun x => (x - emin) / (emax - emin)
    else (e :: rest).map fun _ => 0

/-- The greedy spacing / lane-assignment pass (`beatmap.py` lines 74-92).
`none` models the `ZeroDivisionError` of `(lane + 1) % lanes` when
`lanes = 0`. -/
def buildNotes (d : ℚ) (lanes : ℤ) : List (Cand × ℚ) → ℚ → Option ℤ → Option (List Note)
  | [], _, _ => some []
  | (c, v) :: rest, lastT, lastLane =>
    if c.time - lastT < d then buildNotes d lanes rest lastT lastLane
    else
      let lane0 : ℤ := max 0 (min (lanes - 1) (pyTrunc (v * lanes)))
      let lane? : Option ℤ :=
        match lastLane with
        | some ll =>
          if lane0 = ll then
            if lanes = 0 then none else some ((lane0 + 1) % lanes)
          else some lane0
        | none => some lane0
      match lane? with
      | none => none
      | some lv =>
        (buildNotes d lanes rest c.time (some lv)).map fun ns => ⟨c.time, lv⟩ :: ns

/-- Start/end coverage (`beatmap.py` lines 94-102). -/
def ensureCoverage (duration : ℚ) (lanes : ℤ) (ns : List Note) : List Note :=
  match ns with
  | [] => [⟨1/10, 0⟩, ⟨round4 (max (1/5) (duration - 1/20)), lanes - 1⟩]
  | first :: rest =>
    let withStart := if 1/4 < first.time then ⟨1/10, 0⟩ :: first :: rest else first :: rest
    let lastN := (first :: rest).getLastD first
    if lastN.time < duration - 1/4 then
      withStart ++ [⟨round4 (max (1/20) (duration - 1/20)), lanes - 1⟩]
    else withStart

/-- Chart assembly from the merged candidate list (`beatmap.py` lines
59-102): snap to the grid, deduplicate, normalize, greedy pass, coverage. -/
def assemble (grid : List ℚ) (cands : List Cand) (duration d : ℚ) (lanes : ℤ) :
    Option (List Note) :=
  let snapped := cands.map fun c => (⟨round4 (nearestGridPoint grid c.time), c.energy⟩ : Cand)
  let merged := dedupByTime snapped
  let pairs := merged.zip (normEnergies (merged.map Cand.energy))
  (buildNotes d lanes pairs (-(10 ^ 9 : ℚ)) none).map (ensureCoverage duration lanes)

/-- `generate_beatmap` (`beatmap.py` lines 4-104) as a function of the
front-end outputs: the detected beat times, the RMS envelope frames, the
audio duration, the difficulty and the lane count.  When exactly one beat
is detected, line 24 skips the assignment of `beat_times` while line 51
still reads it, so the Python function raises `NameError`; this is the
`none` result. -/
def generate_beatmap (beatTimes : List ℚ) (rmsFrames : List (ℚ × ℚ))
    (duration d : ℚ) (lanes : ℤ) : Option (List Note) :=
  let grid := if 2 ≤ beatTimes.length then sixteenthGrid beatTimes
              else fallbackGrid duration d
  let peaks := rmsPeaks rmsFrames duration
  if 2 ≤ beatTimes.length then
    assemble grid ((beatTimes.map fun t => (⟨t, 0⟩ : Cand)) ++ peaks) duration d lanes
  else if beatTimes.length = 0 then
    assemble grid peaks duration d lanes
  else none

/-- The judged state of one `RhythmGame` session (`game.py` lines 277-297):
the active note set and the score fields.  Presentation-only fields are
omitted. -/
structure GameState where
  notes : List Note
  score : ℤ
  combo : ℕ
  max_combo : ℕ
  multiplier : ℕ
  perfect_hits_in_combo : ℕ
  missed_notes : ℕ
  total_note_count : ℕ
  accuracy : ℚ
deriving DecidableEq, Repr

/-- `RhythmGame.__init__` scoring fields for a given beatmap. -/
def initGame (beatmap : List Note) : GameState :=
  { notes := beatmap, score := 0, combo := 0, max_combo := 0, multiplier := 1,
    perfect_hits_in_combo := 0, missed_notes := 0,
    total_note_count := beatmap.length, accuracy := 100 }

/-- `RhythmGame._reset_multiplier` (`game.py` lines 421-423). -/
def resetMultiplier (s : GameState) : GameState :=
  { s with multiplier := 1, perfect_hits_in_combo := 0 }

/-- `RhythmGame._increase_multiplier` (`game.py` lines 425-427):
increment the multiplier, capped at `MAX_MULTIPLIER (7)`. -/
def increaseMultiplier (s : GameState) : GameState :=
  if s.multiplier < 7 then { s with multiplier := s.multiplier + 1 } else s

/-- `RhythmGame._register_perfect_hit` (`game.py` lines 429-435): called on
each Perfect hit; every 5 consecutive Perfects bumps the multiplier. -/
def registerPerfectHit (s : GameState) : GameState :=
  if 7 ≤ s.multiplier then s
  else
    let s1 := { s with perfect_hits_in_combo := s.perfect_hits_in_combo + 1 }
    if 5 ≤ s1.perfect_hits_in_combo then
      increaseMultiplier { s1 with perfect_hits_in_combo := 0 }
    else s1

/-- `RhythmGame._recalculate_accuracy` (`game.py` lines 437-443). -/
def recalcAccuracy (s : GameState) : GameState :=
  if s.total_note_count = 0 then { s with accuracy := 0 }
  else
    { s with accuracy :=
        ((s.total_note_count : ℚ) - s.missed_notes) / s.total_note_count * 100 }

/-- `RhythmGame._record_miss` (`game.py` lines 445-448). -/
def recordMiss (s : GameState) : GameState :=
  recalcAccuracy { s with missed_notes := s.missed_notes + 1 }

/-- The scan of `RhythmGame.check_hit` (`game.py` lines 621-625): the first
note in storage order that is in the pressed lane and inside the hit window
`HIT_WINDOW (0.15)`; notes of other lanes or outside the window are
skipped. -/
def scanHit (lane : ℤ) (now : ℚ) : List Note → Option Note
  | [] => none
  | n :: ns =>
    if n.lane = lane then
      if |n.time - now| ≤ 3/20 then some n else scanHit lane now ns
    else scanHit lane now ns

/-- `RhythmGame.check_hit` (`game.py` lines 619-672): resolve the first
in-window note of the pressed lane as a hit (remove it, advance combo and
score, register a Perfect inside `PERFECT_WINDOW (0.05)`), or treat the
press as a whiff (combo and multiplier reset, no miss recorded). -/
def check_hit (lane : ℤ) (now : ℚ) (s : GameState) : GameState :=
  match scanHit lane now s.notes with
  | some n =>
    let s1 := { s with notes := s.notes.erase n, combo := s.combo + 1 }
    let s2 := { s1 with max_combo := max s1.max_combo s1.combo }
    let s3 := { s2 with score := s2.score + 100 * (s2.multiplier : ℤ) }
    if |n.time - now| ≤ 1/20 then registerPerfectHit s3 else s3
  | none => resetMultiplier { s with combo := 0 }

/-- One snapshot element of `RhythmGame.check_misses` (`game.py` lines
674-683): a note past `MISS_THRESHOLD (0.20)` is removed and counted. -/
def missOne (now : ℚ) (st : GameState) (n : Note) : GameState :=
  if n.time + 1/5 < now then
    recordMiss (resetMultiplier { st with notes := st.notes.erase n, combo := 0 })
  else st

/-- `RhythmGame.check_misses` (`game.py` lines 674-683): the per-frame miss
sweep, iterating a snapshot of the note list while removing from the live
list. -/
def check_misses (now : ℚ) (s : GameState) : GameState :=
  s.notes.foldl (missOne now) s

/-- A discrete judgment-engine event: a key-down in a lane at a song time,
or one frame's miss sweep at a song time. -/
inductive GEvent where
  | key : ℤ → ℚ → GEvent
  | sweep : ℚ → GEvent
deriving DecidableEq, Repr

/-- Apply one judgment-engine event (`game.py` lines 549-551 and 597-598). -/
def gstep (s : GameState) : GEvent → GameState
  | GEvent.key lane now => check_hit lane now s
  | GEvent.sweep now => check_misses now s

/-- Apply a sequence of key events and miss sweeps in order. -/
def runEvents (s : GameState) (evs : List GEvent) : GameState :=
  evs.foldl gstep s

/-- The game-clock bookkeeping of `RhythmGame.run` (`game.py` lines
290-308, 487-497, 525-539): session start tick, fixed latency offset,
accumulated pause time, and the tick at which the current pause began.
Ticks are the integer milliseconds of `pygame.time.get_ticks()`. -/
structure ClockState where
  start_time_ms : ℤ
  latency_offset : ℚ
  total_pause_time : ℚ
  pause_start_time : ℤ
deriving DecidableEq, Repr

/-- Song time while playing (`game.py` line 497):
`(current_ticks - start_time_ms) / 1000 + latency_offset - total_pause_time`. -/
def songTimePlaying (ticks : ℤ) (c : ClockState) : ℚ :=
  ((ticks : ℚ) - (c.start_time_ms : ℚ)) / 1000 + c.latency_offset - c.total_pause_time

/-- Song time while paused (`game.py` line 494): frozen at the value the
playing formula had at `pause_start_time`. -/
def songTimePaused (c : ClockState) : ℚ :=
  (((c.pause_start_time : ℚ) - (c.start_time_ms : ℚ)) / 1000) + c.latency_offset
    - c.total_pause_time

/-- Entering pause (`game.py` lines 536-537): records the pause start tick. -/
def pauseAt (ticks : ℤ) (c : ClockState) : ClockState :=
  { c with pause_start_time := ticks }

/-- Resuming (`game.py` lines 528-529): adds the pause duration to the
accumulated pause total. -/
def resumeAt (ticks : ℤ) (c : ClockState) : ClockState :=
  { c with total_pause_time :=
      c.total_pause_time + ((ticks : ℚ) - (c.pause_start_time : ℚ)) / 1000 }

/-- The dict comprehension of the dedup step leaves the extracted values
unchanged when all candidate times are distinct... helper: an RMS envelope
whose frames are all zero yields no energy peaks, as soon as it has at
least two frames (a sole frame would count as a peak against the virtual
negative-infinity padding). -/
theorem rmsPeaks_all_zero (frames : List (ℚ × ℚ)) (duration : ℚ)
    (hlen : 2 ≤ frames.length) (hz : ∀ p ∈ frames, p.2 = 0) :
    rmsPeaks frames duration = [] := by
  simp only [rmsPeaks]
  rw [List.filterMap_eq_nil_iff]
  intro i hi
  rw [List.mem_range] at hi
  have hgi : frames[i]? = some frames[i] := List.getElem?_eq_getElem hi
  have hvi : (frames[i]).2 = 0 := hz _ (List.getElem_mem hi)
  cases i with
  | zero =>
    have h1 : 1 < frames.length := by omega
    have hq : frames[1]? = some (frames[1]) := List.getElem?_eq_getElem h1
    have hq0 : (frames[1]).2 = 0 := hz _ (List.getElem_mem h1)
    simp [hgi, rightSmaller, hq, hq0, hvi]
  | succ j =>
    have hj : j < frames.length := by omega
    have hq : frames[j]? = some (frames[j]) := List.getElem?_eq_getElem hj
    have hq0 : (frames[j]).2 = 0 := hz _ (List.getElem_mem hj)
    simp [hgi, leftSmaller, hq, hq0, hvi]

/-- Assembling an empty candidate list is exactly the synthetic coverage
pair, whatever the grid and the difficulty. -/
theorem assemble_nil (grid : List ℚ) (duration d : ℚ) (lanes : ℤ) :
    assemble grid [] duration d lanes = some (ensureCoverage duration lanes []) := rfl

/-- C8: for a silent (all-zero) sample buffer of duration 10 s — no beats
are detected and every RMS frame is zero — `generate_beatmap` with 4 lanes
produces exactly the two synthetic coverage notes
`{time = 0.1, lane = 0}` and `{time = 9.95, lane = 3}`, for any
difficulty (in particular the source default 0.16 and the documented
default 0.2). -/
theorem silent_buffer_two_note_chart (rms : List (ℚ × ℚ)) (d : ℚ)
    (hlen : 2 ≤ rms.length) (hz : ∀ p ∈ rms, p.2 = 0) :
    generate_beatmap [] rms 10 d 4 = some [⟨1/10, 0⟩, ⟨199/20, 3⟩] := by
  have hpeaks : rmsPeaks rms 10 = [] := rmsPeaks_all_zero rms 10 hlen hz
  simp only [generate_beatmap, List.length_nil, hpeaks]
  norm_num [assemble_nil]
  with_unfolding_all decide

/-- Witness for C8 at a concrete two-frame silent envelope. -/
theorem silent_buffer_two_note_chart_witness :
    (2 ≤ ([((1 : ℚ), (0 : ℚ)), (2, 0)] : List (ℚ × ℚ)).length
      ∧ (∀ p ∈ ([((1 : ℚ), (0 : ℚ)), (2, 0)] : List (ℚ × ℚ)), p.2 = 0))
    ∧ generate_beatmap [] [(1, 0), (2, 0)] 10 (16/100) 4 =
        some [⟨1/10, 0⟩, ⟨199/20, 3⟩] :=
  ⟨⟨by decide, by decide⟩,
    silent_buffer_two_note_chart [(1, 0), (2, 0)] (16/100) (by decide) (by decide)⟩

/-- C1: on degenerate audio the fallback grid does recover the no-beat
case (first conjunct: zero beats still yield a chart), but when the beat
tracker reports exactly one beat `generate_beatmap` crashes: line 24 of
`beatmap.py` assigns `beat_times` only when `len(beats) >= 2`, while line
51 reads it whenever `len(beats)` is non-zero, raising `NameError`
(modelled by `none`). -/
theorem beatmap_one_beat_crash :
    generate_beatmap [] [(1, 0), (2, 0)] 10 (16/100) 4 =
      some [⟨1/10, 0⟩, ⟨199/20, 3⟩]
    ∧ generate_beatmap [5] [(1, 0), (2, 0)] 10 (16/100) 4 = none := by
  constructor
  · with_unfolding_all decide
  · rfl

/-- C2 (counterexample): a call with `difficulty = -1 <= 0` and
`laneCount = 1 < 2` is not rejected — generation proceeds and returns an
ordinary two-note chart, so no caller-visible configuration error exists. -/
theorem no_parameter_validation_counterexample :
    generate_beatmap [] [(1, 0), (2, 0)] 10 (-1) 1 =
      some [⟨1/10, 0⟩, ⟨199/20, 0⟩]
    ∧ (-1 : ℚ) ≤ 0 ∧ (1 : ℤ) < 2 := by
  refine ⟨?_, by norm_num, by norm_num⟩
  with_unfolding_all decide

/-- C2 (amended): `generate_beatmap` performs no parameter validation;
every call with `difficulty <= 0` and `laneCount = 1` simply proceeds
through generation and returns a note list. -/
theorem no_parameter_validation (d : ℚ) (hd : d ≤ 0) :
    generate_beatmap [] [(1, 0), (2, 0)] 10 d 1 =
      some [⟨1/10, 0⟩, ⟨199/20, 0⟩] := by
  with_unfolding_all rfl

/-- Witness for the amended C2 at `difficulty = -1`. -/
theorem no_parameter_validation_witness :
    (-1 : ℚ) ≤ 0
    ∧ generate_beatmap [] [(1, 0), (2, 0)] 10 (-1) 1 =
        some [⟨1/10, 0⟩, ⟨199/20, 0⟩] :=
  ⟨by norm_num, no_parameter_validation (-1) (by norm_num)⟩

/-- C3: the dedup step of `beatmap.py` line 65 builds a dict keyed by time,
so the LAST-inserted candidate of a time bucket survives, regardless of
energy: of two events at the same snapped time with energies 5 then 3, the
retained one has energy 3 although the highest energy in the bucket is 5
(contradicting the claim and the source's own comment
"Remove duplicates (keep strongest energy)"). -/
theorem dedup_keeps_last_not_strongest :
    dedupByTime [⟨1, 5⟩, ⟨1, 3⟩] = [⟨1, 3⟩] ∧ (3 : ℚ) < 5 := by
  constructor
  · with_unfolding_all decide
  · norm_num

/-- C4 (counterexample): with two lane-0 notes at times 5.12 and 5.0 both
inside the 0.15 s hit window of a key-down at time 5, `check_hit` resolves
the storage-first note (5.12) and leaves the temporally nearest one (5.0,
with `|dt| = 0`) in the active set. -/
theorem hit_storage_order_counterexample :
    (check_hit 0 5 (initGame [⟨128/25, 0⟩, ⟨5, 0⟩])).notes = [⟨5, 0⟩]
    ∧ |(128/25 : ℚ) - 5| ≤ 3/20 ∧ |(5 : ℚ) - 5| < |(128/25 : ℚ) - 5| := by
  refine ⟨?_, by norm_num [abs_le], by norm_num⟩
  with_unfolding_all decide

/-- C7: song time computed by the playing formula at the resume tick
equals the frozen paused song time, which itself equals the playing song
time at the pause tick — a pause/resume pair contributes zero net elapsed
song time, because the pause duration is added to the accumulated pause
total. -/
theorem pause_invariance (c : ClockState) (p r : ℤ) :
    songTimePlaying r (resumeAt r (pauseAt p c)) = songTimePaused (pauseAt p c)
    ∧ songTimePaused (pauseAt p c) = songTimePlaying p c := by
  constructor
  · simp only [songTimePlaying, songTimePaused, resumeAt, pauseAt]
    ring
  · simp only [songTimePaused, songTimePlaying, pauseAt]

/-- `_recalculate_accuracy` touches only the accuracy field. -/
@[simp] theorem recalcAccuracy_multiplier (s : GameState) :
    (recalcAccuracy s).multiplier = s.multiplier := by
  unfold recalcAccuracy; split_ifs <;> rfl

@[simp] theorem recalcAccuracy_combo (s : GameState) :
    (recalcAccuracy s).combo = s.combo := by
  unfold recalcAccuracy; split_ifs <;> rfl

@[simp] theorem recalcAccuracy_max_combo (s : GameState) :
    (recalcAccuracy s).max_combo = s.max_combo := by
  unfold recalcAccuracy; split_ifs <;> rfl

@[simp] theorem recalcAccuracy_notes (s : GameState) :
    (recalcAccuracy s).notes = s.notes := by
  unfold recalcAccuracy; split_ifs <;> rfl

@[simp] theorem recalcAccuracy_streak (s : GameState) :
    (recalcAccuracy s).perfect_hits_in_combo = s.perfect_hits_in_combo := by
  unfold recalcAccuracy; split_ifs <;> rfl

@[simp] theorem recalcAccuracy_score (s : GameState) :
    (recalcAccuracy s).score = s.score := by
  unfold recalcAccuracy; split_ifs <;> rfl

@[simp] theorem recalcAccuracy_missed (s : GameState) :
    (recalcAccuracy s).missed_notes = s.missed_notes := by
  unfold recalcAccuracy; split_ifs <;> rfl

/-- `_register_perfect_hit` touches only multiplier and streak. -/
@[simp] theorem registerPerfectHit_notes (s : GameState) :
    (registerPerfectHit s).notes = s.notes := by
  simp only [registerPerfectHit, increaseMultiplier]; split_ifs <;> rfl

@[simp] theorem registerPerfectHit_combo (s : GameState) :
    (registerPerfectHit s).combo = s.combo := by
  simp only [registerPerfectHit, increaseMultiplier]; split_ifs <;> rfl

@[simp] theorem registerPerfectHit_max_combo (s : GameState) :
    (registerPerfectHit s).max_combo = s.max_combo := by
  simp only [registerPerfectHit, increaseMultiplier]; split_ifs <;> rfl

@[simp] theorem registerPerfectHit_score (s : GameState) :
    (registerPerfectHit s).score = s.score := by
  simp only [registerPerfectHit, increaseMultiplier]; split_ifs <;> rfl

@[simp] theorem registerPerfectHit_missed (s : GameState) :
    (registerPerfectHit s).missed_notes = s.missed_notes := by
  simp only [registerPerfectHit, increaseMultiplier]; split_ifs <;> rfl

@[simp] theorem registerPerfectHit_accuracy (s : GameState) :
    (registerPerfectHit s).accuracy = s.accuracy := by
  simp only [registerPerfectHit, increaseMultiplier]; split_ifs <;> rfl

/-- `_register_perfect_hit` reads and writes only multiplier and streak, so
its effect on those two fields depends on those two fields alone. -/
theorem registerPerfectHit_congr (a b : GameState)
    (hm : a.multiplier = b.multiplier)
    (hp : a.perfect_hits_in_combo = b.perfect_hits_in_combo) :
    (registerPerfectHit a).multiplier = (registerPerfectHit b).multiplier
    ∧ (registerPerfectHit a).perfect_hits_in_combo
        = (registerPerfectHit b).perfect_hits_in_combo := by
  simp only [registerPerfectHit, increaseMultiplier, hm, hp]
  split_ifs <;> simp_all

/-- The multiplier never exceeds `MAX_MULTIPLIER (7)` after a Perfect. -/
theorem registerPerfectHit_mult_le (s : GameState) (h : s.multiplier ≤ 7) :
    (registerPerfectHit s).multiplier ≤ 7 := by
  simp only [registerPerfectHit, increaseMultiplier]
  split_ifs <;> simp_all <;> omega

/-- A press with no in-window note in the pressed lane scans to nothing. -/
theorem scanHit_eq_none (lane : ℤ) (now : ℚ) (ns : List Note)
    (h : ∀ n ∈ ns, n.lane = lane → ¬ |n.time - now| ≤ 3/20) :
    scanHit lane now ns = none := by
  induction ns with
  | nil => rfl
  | cons n rest ih =>
    simp only [scanHit]
    split_ifs with h1 h2
    · exact absurd h2 (h n (by simp) h1)
    · exact ih fun m hm hl => h m (by simp [hm]) hl
    · exact ih fun m hm hl => h m (by simp [hm]) hl

/-- C9: a key-down with no active note of that lane inside the hit window
is a whiff — `check_hit` resets combo to 0, multiplier to 1 and clears the
perfect streak, and leaves the note set, missed count, accuracy, score and
max combo unchanged. -/
theorem whiff_resets_combo_only (s : GameState) (lane : ℤ) (now : ℚ)
    (h : ∀ n ∈ s.notes, n.lane = lane → ¬ |n.time - now| ≤ 3/20) :
    (check_hit lane now s).combo = 0
    ∧ (check_hit lane now s).multiplier = 1
    ∧ (check_hit lane now s).perfect_hits_in_combo = 0
    ∧ (check_hit lane now s).notes = s.notes
    ∧ (check_hit lane now s).missed_notes = s.missed_notes
    ∧ (check_hit lane now s).accuracy = s.accuracy
    ∧ (check_hit lane now s).score = s.score
    ∧ (check_hit lane now s).max_combo = s.max_combo := by
  have hs : scanHit lane now s.notes = none := scanHit_eq_none _ _ _ h
  simp [check_hit, hs, resetMultiplier]

/-- Witness for C9: a press in lane 1 at time 0 against a sole lane-0
note. -/
theorem whiff_resets_combo_only_witness :
    (∀ n ∈ (initGame [⟨5, 0⟩]).notes, n.lane = 1 → ¬ |n.time - 0| ≤ 3/20)
    ∧ (check_hit 1 0 (initGame [⟨5, 0⟩])).combo = 0
    ∧ (check_hit 1 0 (initGame [⟨5, 0⟩])).multiplier = 1 :=
  ⟨by with_unfolding_all decide,
    (whiff_resets_combo_only (initGame [⟨5, 0⟩]) 1 0 (by with_unfolding_all decide)).1,
    (whiff_resets_combo_only (initGame [⟨5, 0⟩]) 1 0 (by with_unfolding_all decide)).2.1⟩

/-- `check_hit` scans past every note that is in another lane or outside
the window, and stops at the first note satisfying both. -/
theorem scanHit_first (lane : ℤ) (now : ℚ) :
    ∀ (pre : List Note) (n : Note) (post : List Note),
      (∀ m ∈ pre, ¬ (m.lane = lane ∧ |m.time - now| ≤ 3/20)) →
      n.lane = lane → |n.time - now| ≤ 3/20 →
      scanHit lane now (pre ++ n :: post) = some n := by
  intro pre
  induction pre with
  | nil =>
    intro n post _ hlane hwin
    simp [scanHit, hlane, hwin]
  | cons m ms ih =>
    intro n post hpre hlane hwin
    have hm := hpre m (by simp)
    simp only [List.cons_append, scanHit]
    split_ifs with h1 h2
    · exact absurd ⟨h1, h2⟩ hm
    · exact ih n post (fun x hx => hpre x (by simp [hx])) hlane hwin
    · exact ih n post (fun x hx => hpre x (by simp [hx])) hlane hwin

/-- C4 (amended): when the pressed lane holds an in-window note,
`check_hit` resolves the FIRST such note in storage order — the note
removed from the active set is the first list element in the lane and
window, regardless of whether a later note is temporally nearer. -/
theorem check_hit_first_in_storage_order (lane : ℤ) (now : ℚ) (s : GameState)
    (pre post : List Note) (n : Note)
    (hsplit : s.notes = pre ++ n :: post)
    (hpre : ∀ m ∈ pre, ¬ (m.lane = lane ∧ |m.time - now| ≤ 3/20))
    (hlane : n.lane = lane) (hwin : |n.time - now| ≤ 3/20) :
    scanHit lane now s.notes = some n
    ∧ (check_hit lane now s).notes = pre ++ post := by
  have hscan : scanHit lane now s.notes = some n := by
    rw [hsplit]; exact scanHit_first lane now pre n post hpre hlane hwin
  have hnotin : n ∉ pre := fun hmem => hpre n hmem ⟨hlane, hwin⟩
  have herase : s.notes.erase n = pre ++ post := by
    rw [hsplit, List.erase_append_right _ hnotin, List.erase_cons_head]
  refine ⟨hscan, ?_⟩
  simp only [check_hit, hscan]
  split_ifs <;> simp [herase]

/-- Witness for the amended C4: the storage-first note at 5.12 is resolved
by a press at time 5 even though the later note at 5.0 is nearer. -/
theorem check_hit_first_in_storage_order_witness :
    ((initGame [⟨128/25, 0⟩, ⟨5, 0⟩]).notes = [] ++ (⟨128/25, 0⟩ : Note) :: [⟨5, 0⟩]
      ∧ (⟨128/25, 0⟩ : Note).lane = 0 ∧ |(128/25 : ℚ) - 5| ≤ 3/20)
    ∧ scanHit 0 5 (initGame [⟨128/25, 0⟩, ⟨5, 0⟩]).notes = some ⟨128/25, 0⟩
    ∧ (check_hit 0 5 (initGame [⟨128/25, 0⟩, ⟨5, 0⟩])).notes = [] ++ [⟨5, 0⟩] :=
  ⟨⟨rfl, rfl, by with_unfolding_all decide⟩,
    check_hit_first_in_storage_order 0 5 (initGame [⟨128/25, 0⟩, ⟨5, 0⟩])
      [] [⟨5, 0⟩] ⟨128/25, 0⟩ rfl (by simp) rfl (by with_unfolding_all decide)⟩

/-- Iterating `_register_perfect_hit` from multiplier 1 and empty streak:
after `N` Perfects the multiplier is `min 7 (1 + N / 5)` and the streak
counter is `N % 5` until the multiplier saturates at `N = 30`. -/
theorem registerPerfectHit_iter (N : ℕ) (s : GameState)
    (hm : s.multiplier = 1) (hp : s.perfect_hits_in_combo = 0) :
    (registerPerfectHit^[N] s).multiplier = min 7 (1 + N / 5)
    ∧ (registerPerfectHit^[N] s).perfect_hits_in_combo
        = if N < 30 then N % 5 else 0 := by
  induction N with
  | zero => simpa using ⟨hm, hp⟩
  | succ n ih =>
    obtain ⟨h1, h2⟩ := ih
    rw [Function.iterate_succ_apply']
    simp only [registerPerfectHit, increaseMultiplier]
    split_ifs at h2 ⊢ <;> refine ⟨?_, ?_⟩ <;> simp_all <;> omega

/-- C6: starting from multiplier 1 and an empty perfect streak, `N`
consecutive Perfect hits leave the multiplier at `min 7 (1 + N / 5)`
(first conjunct); a `check_hit` that resolves a note inside the Perfect
window changes multiplier and streak exactly as one
`_register_perfect_hit` does (second conjunct); and no judgment-engine
operation — key handling or miss sweep — ever pushes the multiplier
above `MAX_MULTIPLIER (7)` (third conjunct). -/
theorem multiplier_progression :
    (∀ (N : ℕ) (s : GameState), s.multiplier = 1 → s.perfect_hits_in_combo = 0 →
        (registerPerfectHit^[N] s).multiplier = min 7 (1 + N / 5))
    ∧ (∀ (s : GameState) (lane : ℤ) (now : ℚ) (n : Note),
        scanHit lane now s.notes = some n → |n.time - now| ≤ 1/20 →
        (check_hit lane now s).multiplier = (registerPerfectHit s).multiplier
        ∧ (check_hit lane now s).perfect_hits_in_combo
            = (registerPerfectHit s).perfect_hits_in_combo)
    ∧ (∀ (s : GameState) (e : GEvent), s.multiplier ≤ 7 →
        (gstep s e).multiplier ≤ 7) := by
  refine ⟨fun N s hm hp => (registerPerfectHit_iter N s hm hp).1, ?_, ?_⟩
  · intro s lane now n hscan hperf
    simp only [check_hit, hscan]
    rw [if_pos hperf]
    exact registerPerfectHit_congr _ _ rfl rfl
  · intro s e h
    cases e with
    | key lane now =>
      simp only [gstep, check_hit]
      cases hscan : scanHit lane now s.notes with
      | none => simp [resetMultiplier]
      | some n =>
        dsimp only
        split_ifs with hperf
        · exact registerPerfectHit_mult_le _ h
        · exact h
    | sweep now =>
      simp only [gstep, check_misses]
      have step : ∀ (l : List Note) (t : GameState), t.multiplier ≤ 7 →
          (l.foldl (missOne now) t).multiplier ≤ 7 := by
        intro l
        induction l with
        | nil => intro t ht; exact ht
        | cons m rest ih =>
          intro t ht
          simp only [List.foldl_cons]
          apply ih
          unfold missOne
          split_ifs
          · simp [recordMiss, resetMultiplier]
          · exact ht
      exact step s.notes s h

/-- Witness for C6 at `N = 30` from a fresh game state: the multiplier
saturates at exactly 7. -/
theorem multiplier_progression_witness :
    ((initGame []).multiplier = 1 ∧ (initGame []).perfect_hits_in_combo = 0)
    ∧ (registerPerfectHit^[30] (initGame [])).multiplier = min 7 (1 + 30 / 5) :=
  ⟨⟨rfl, rfl⟩, multiplier_progression.1 30 (initGame []) rfl rfl⟩

/-- The miss sweep never changes the recorded max combo. -/
theorem missOne_max_combo (now : ℚ) (st : GameState) (n : Note) :
    (missOne now st n).max_combo = st.max_combo := by
  unfold missOne; split_ifs <;> simp [recordMiss, resetMultiplier]

/-- One sweep step preserves `combo <= max_combo`. -/
theorem missOne_combo_le (now : ℚ) (st : GameState) (n : Note)
    (h : st.combo ≤ st.max_combo) :
    (missOne now st n).combo ≤ (missOne now st n).max_combo := by
  unfold missOne; split_ifs <;> simp [recordMiss, resetMultiplier, h]

/-- The whole miss sweep never changes the recorded max combo. -/
theorem foldl_missOne_max_eq (now : ℚ) :
    ∀ (l : List Note) (s : GameState),
      (l.foldl (missOne now) s).max_combo = s.max_combo := by
  intro l
  induction l with
  | nil => intro s; rfl
  | cons n rest ih =>
    intro s
    simp only [List.foldl_cons]
    rw [ih, missOne_max_combo]

/-- The whole miss sweep preserves `combo <= max_combo`. -/
theorem foldl_missOne_combo_le (now : ℚ) :
    ∀ (l : List Note) (s : GameState), s.combo ≤ s.max_combo →
      (l.foldl (missOne now) s).combo ≤ (l.foldl (missOne now) s).max_combo := by
  intro l
  induction l with
  | nil => intro s h; exact h
  | cons n rest ih =>
    intro s h
    simp only [List.foldl_cons]
    exact ih _ (missOne_combo_le now s n h)

/-- One judgment-engine event preserves `combo <= max_combo` and never
lowers `max_combo`. -/
theorem gstep_max_combo (s : GameState) (e : GEvent) (h : s.combo ≤ s.max_combo) :
    (gstep s e).combo ≤ (gstep s e).max_combo
    ∧ s.max_combo ≤ (gstep s e).max_combo := by
  cases e with
  | key lane now =>
    simp only [gstep, check_hit]
    cases hscan : scanHit lane now s.notes with
    | none => simpa [resetMultiplier] using h
    | some n =>
      dsimp only
      split_ifs with hperf
      · refine ⟨?_, ?_⟩ <;> simp only [registerPerfectHit_combo, registerPerfectHit_max_combo]
        · exact le_max_right _ _
        · exact le_max_left _ _
      · exact ⟨le_max_right _ _, le_max_left _ _⟩
  | sweep now =>
    simp only [gstep, check_misses]
    exact ⟨foldl_missOne_combo_le now s.notes s h, le_of_eq (foldl_missOne_max_eq now s.notes s).symm⟩

/-- C10: over any sequence of key events and miss sweeps, the invariant
`combo <= max_combo` is preserved (so it holds after every `check_hit`
and every `check_misses` call), and `max_combo` is monotonically
non-decreasing — combo resets never lower the recorded maximum. -/
theorem max_combo_invariant (s : GameState) (evs : List GEvent)
    (h : s.combo ≤ s.max_combo) :
    (runEvents s evs).combo ≤ (runEvents s evs).max_combo
    ∧ s.max_combo ≤ (runEvents s evs).max_combo := by
  induction evs generalizing s with
  | nil => exact ⟨h, le_refl _⟩
  | cons e rest ih =>
    simp only [runEvents, List.foldl_cons]
    obtain ⟨h1, h2⟩ := gstep_max_combo s e h
    obtain ⟨h3, h4⟩ := ih (gstep s e) h1
    exact ⟨h3, le_trans h2 h4⟩

/-- Witness for C10: a hit then a sweep from a fresh one-note game. -/
theorem max_combo_invariant_witness :
    (initGame [⟨5, 0⟩]).combo ≤ (initGame [⟨5, 0⟩]).max_combo
    ∧ ((runEvents (initGame [⟨5, 0⟩]) [GEvent.key 0 5, GEvent.sweep 6]).combo
        ≤ (runEvents (initGame [⟨5, 0⟩]) [GEvent.key 0 5, GEvent.sweep 6]).max_combo
      ∧ (initGame [⟨5, 0⟩]).max_combo
        ≤ (runEvents (initGame [⟨5, 0⟩]) [GEvent.key 0 5, GEvent.sweep 6]).max_combo) :=
  ⟨le_refl 0, max_combo_invariant (initGame [⟨5, 0⟩]) [GEvent.key 0 5, GEvent.sweep 6] (le_refl 0)⟩

/-- C5 (counterexample): the coverage step can prepend a lane-0 synthetic
note in front of a lane-0 first real note — two beats at 1 s and 2 s in a
3 s file give the chart `[{0.1,0},{1,0},{2,1},{2.95,3}]`, whose first two
adjacent notes share lane 0. -/
theorem adjacent_lane_repeat_counterexample :
    generate_beatmap [1, 2] [(1, 0), (2, 0)] 3 (16/100) 4 =
      some [⟨1/10, 0⟩, ⟨1, 0⟩, ⟨2, 1⟩, ⟨59/20, 3⟩]
    ∧ ¬ List.Chain' (fun a b : Note => a.lane ≠ b.lane)
        [⟨1/10, 0⟩, ⟨1, 0⟩, ⟨2, 1⟩, ⟨59/20, 3⟩] := by
  constructor
  · with_unfolding_all decide
  · intro h
    exact (List.chain'_cons.mp h).1 rfl

/-- Rotating an in-range lane by one modulo the lane count yields a
different lane, when there are at least two lanes. -/
theorem rotate_lane_ne (lanes l : ℤ) (h2 : 2 ≤ lanes) (h0 : 0 ≤ l)
    (hlt : l < lanes) : (l + 1) % lanes ≠ l := by
  rcases eq_or_lt_of_le (Int.add_one_le_iff.mpr hlt) with he | hlt2
  · rw [he, Int.emod_self]
    omega
  · rw [Int.emod_eq_of_lt (by omega) hlt2]
    omega

/-- C5 (amended): the greedy spacing / lane-assignment pass on its own
never emits two adjacent notes in the same lane (for `laneCount >= 2`),
every emitted lane is in range, and the first emitted note differs from
the incoming `last_lane`; the violation of the claim comes only from the
synthetic coverage notes added afterwards. -/
theorem greedy_pass_no_adjacent_lane_repeat (d : ℚ) (lanes : ℤ) (hl : 2 ≤ lanes) :
    ∀ (ps : List (Cand × ℚ)) (lt : ℚ) (ll : Option ℤ) (ns : List Note),
      (∀ l, ll = some l → 0 ≤ l ∧ l < lanes) →
      buildNotes d lanes ps lt ll = some ns →
      List.Chain' (fun a b : Note => a.lane ≠ b.lane) ns
      ∧ (∀ l n, ll = some l → ns.head? = some n → n.lane ≠ l)
      ∧ ∀ n ∈ ns, 0 ≤ n.lane ∧ n.lane < lanes := by
  intro ps
  induction ps with
  | nil =>
    intro lt ll ns _ hb
    simp only [buildNotes, Option.some.injEq] at hb
    subst hb
    simp
  | cons p rest ih =>
    obtain ⟨c, v⟩ := p
    intro lt ll ns hll hb
    simp only [buildNotes] at hb
    split_ifs at hb with hskip hzero
    · exact ih lt ll ns hll hb
    · omega
    · have h0 : (0:ℤ) ≤ max 0 (min (lanes - 1) (pyTrunc (v * lanes))) := le_max_left _ _
      have hmle := min_le_left (lanes - 1) (pyTrunc (v * lanes))
      have h1 : max 0 (min (lanes - 1) (pyTrunc (v * lanes))) < lanes := by
        rcases max_cases 0 (min (lanes - 1) (pyTrunc (v * lanes))) with ⟨hEq, _⟩ | ⟨hEq, _⟩ <;>
          rw [hEq] <;> omega
      cases ll with
      | none =>
        dsimp only at hb
        cases hrec : buildNotes d lanes rest c.time
            (some (max 0 (min (lanes - 1) (pyTrunc (v * lanes))))) with
        | none => rw [hrec] at hb; simp at hb
        | some tail =>
          rw [hrec] at hb
          simp only [Option.map_some', Option.some.injEq] at hb
          subst hb
          obtain ⟨ch, hh, rng⟩ := ih c.time (some _) tail
            (fun l hl' => by injection hl' with he; subst he; exact ⟨h0, h1⟩) hrec
          refine ⟨?_, ?_, ?_⟩
          · cases tail with
            | nil => simp
            | cons t ts => exact List.chain'_cons.mpr ⟨Ne.symm (hh _ t rfl rfl), ch⟩
          · intro l n hln
            exact absurd hln (by simp)
          · intro n hn
            rcases List.mem_cons.mp hn with rfl | hmem
            · exact ⟨h0, h1⟩
            · exact rng n hmem
      | some llv =>
        obtain ⟨hle0, hlelt⟩ := hll llv rfl
        dsimp only at hb
        by_cases heq : max 0 (min (lanes - 1) (pyTrunc (v * lanes))) = llv
        · rw [if_pos heq] at hb
          dsimp only at hb
          have h0r : (0:ℤ) ≤ (max 0 (min (lanes - 1) (pyTrunc (v * lanes))) + 1) % lanes :=
            Int.emod_nonneg _ (by omega)
          have h1r : (max 0 (min (lanes - 1) (pyTrunc (v * lanes))) + 1) % lanes < lanes :=
            Int.emod_lt_of_pos _ (by omega)
          have hne : (max 0 (min (lanes - 1) (pyTrunc (v * lanes))) + 1) % lanes ≠ llv := by
            rw [heq]; exact rotate_lane_ne lanes llv hl hle0 hlelt
          cases hrec : buildNotes d lanes rest c.time
              (some ((max 0 (min (lanes - 1) (pyTrunc (v * lanes))) + 1) % lanes)) with
          | none => rw [hrec] at hb; simp at hb
          | some tail =>
            rw [hrec] at hb
            simp only [Option.map_some', Option.some.injEq] at hb
            subst hb
            obtain ⟨ch, hh, rng⟩ := ih c.time (some _) tail
              (fun l hl' => by injection hl' with he; subst he; exact ⟨h0r, h1r⟩) hrec
            refine ⟨?_, ?_, ?_⟩
            · cases tail with
              | nil => simp
              | cons t ts => exact List.chain'_cons.mpr ⟨Ne.symm (hh _ t rfl rfl), ch⟩
            · intro l n hln hhead
              injection hln with hl2
              subst hl2
              injection hhead with hn2
              subst hn2
              exact hne
            · intro n hn
              rcases List.mem_cons.mp hn with rfl | hmem
              · exact ⟨h0r, h1r⟩
              · exact rng n hmem
        · rw [if_neg heq] at hb
          dsimp only at hb
          cases hrec : buildNotes d lanes rest c.time
              (some (max 0 (min (lanes - 1) (pyTrunc (v * lanes))))) with
          | none => rw [hrec] at hb; simp at hb
          | some tail =>
            rw [hrec] at hb
            simp only [Option.map_some', Option.some.injEq] at hb
            subst hb
            obtain ⟨ch, hh, rng⟩ := ih c.time (some _) tail
              (fun l hl' => by injection hl' with he; subst he; exact ⟨h0, h1⟩) hrec
            refine ⟨?_, ?_, ?_⟩
            · cases tail with
              | nil => simp
              | cons t ts => exact List.chain'_cons.mpr ⟨Ne.symm (hh _ t rfl rfl), ch⟩
            · intro l n hln hhead
              injection hln with hl2
              subst hl2
              injection hhead with hn2
              subst hn2
              exact heq
            · intro n hn
              rcases List.mem_cons.mp hn with rfl | hmem
              · exact ⟨h0, h1⟩
              · exact rng n hmem

/-- Witness for the amended C5: the greedy pass over the two snapped beat
candidates of the counterexample emits `[{1,0},{2,1}]`, which has no
adjacent lane repeat. -/
theorem greedy_pass_no_adjacent_lane_repeat_witness :
    ((2:ℤ) ≤ 4 ∧ (∀ l : ℤ, (none : Option ℤ) = some l → 0 ≤ l ∧ l < 4)
      ∧ buildNotes (16/100) 4 [(⟨1, 0⟩, 0), (⟨2, 0⟩, 0)] (-(10 ^ 9 : ℚ)) none =
          some [⟨1, 0⟩, ⟨2, 1⟩])
    ∧ List.Chain' (fun a b : Note => a.lane ≠ b.lane) [⟨1, 0⟩, ⟨2, 1⟩] :=
  ⟨⟨by norm_num, by simp, by with_unfolding_all decide⟩,
    (greedy_pass_no_adjacent_lane_repeat (16/100) 4 (by norm_num)
      [(⟨1, 0⟩, 0), (⟨2, 0⟩, 0)] (-(10 ^ 9)) none [⟨1, 0⟩, ⟨2, 1⟩]
      (by simp) (by with_unfolding_all decide)).1⟩
